import Mathlib

/-!
Shallow embedding of `src/server.js` (zapresponder-api-vieira): a scheduled
synchronization job that walks a list of campaigns, fetches delivery logs for
each from a remote API, maps them and inserts them into storage, while
maintaining a single process-wide `status` record.

Modelling conventions:
* JavaScript strings used as stored field values are `List Char`; strings used
  only as error messages are `String`.
* The wall clock (`nowIso()`) is an abstract tick counter: every function that
  may call `nowIso()` threads a `Nat` counter; each call returns the current
  counter value and increments it.  Timestamps in the status are `Option Nat`.
* Instants (`Date` values / `created_at`) are `Int` milliseconds since epoch.
  `d.setHours(d.getHours() - 3)` under the server's fixed-offset timezone
  equals subtracting exactly 3 hours = 10800000 ms of absolute time.
* The JS `Date` parser is modelled by classifying its input: an `IsoInput` is
  either missing/falsy, unparseable (the parse yields NaN), or parsed to an
  epoch instant.
* I/O outcomes are environment data: the campaign-list fetch and each
  campaign's log fetch are `Except String _` values (`error` = the call threw,
  carrying `err.message`); each record-insert outcome is an
  `Option String` (`some msg` = the insert threw with `err.message`).
-/

namespace Zap

/-- The process-wide `status` object (src/server.js lines 30-45). -/
structure RunStatus where
  running : Bool
  lastRunStartedAt : Option Nat
  lastRunFinishedAt : Option Nat
  lastSuccessAt : Option Nat
  lastError : Option String
  lastErrorAt : Option Nat
  campaignsTotal : Nat
  campaignsProcessed : Nat
  logsInserted : Nat
  logInsertErrors : Nat
  currentCampaignId : Option String
  progressPercent : Nat
  progressBar : String
  lastLogCreatedAt : Option Int
deriving DecidableEq

/-- The initial value of the `status` object (src/server.js lines 30-45). -/
def initStatus : RunStatus :=
  { running := false
    lastRunStartedAt := none
    lastRunFinishedAt := none
    lastSuccessAt := none
    lastError := none
    lastErrorAt := none
    campaignsTotal := 0
    campaignsProcessed := 0
    logsInserted := 0
    logInsertErrors := 0
    currentCampaignId := none
    progressPercent := 0
    progressBar := ""
    lastLogCreatedAt := none }

/-- `clampStr(value, maxLen)` (src/server.js lines 53-57): null/undefined map
to null, otherwise the string is truncated to `maxLen` characters. -/
def clampStr (value : Option (List Char)) (maxLen : Nat) : Option (List Char) :=
  match value with
  | none => none
  | some s => some (if s.length > maxLen then s.take maxLen else s)

/-- Classification of the argument of `toSqlDateTime` (a value fed to
`new Date(iso)`): falsy/missing, a string the Date parser rejects (NaN), or a
string parsed to an epoch instant in milliseconds. -/
inductive IsoInput where
  | missing
  | unparseable
  | parsed (t : Int)
deriving DecidableEq

/-- `toSqlDateTime(iso)` (src/server.js lines 59-65): falsy input and
unparseable input map to null; a parsed instant is shifted back by 3 hours
(`d.setHours(d.getHours() - 3)` under a fixed-offset timezone subtracts
exactly 10800000 ms). -/
def toSqlDateTime (iso : IsoInput) : Option Int :=
  match iso with
  | IsoInput.missing => none
  | IsoInput.unparseable => none
  | IsoInput.parsed t => some (t - 10800000)

/-- `buildProgressBar(percent, width)` (src/server.js lines 67-72).
`width || 20` makes a missing or zero width default to 20.
`Math.round((percent / 100) * size)` is nearest-integer rounding, half away
from zero, which on naturals is `(2 * percent * size + 100) / 200`;
`Math.max(size - filled, 0)` is natural subtraction. -/
def buildProgressBar (percent : Nat) (width : Option Nat) : String :=
  let size := match width with
    | none => 20
    | some w => if w = 0 then 20 else w
  let filled := (2 * percent * size + 100) / 200
  let empty := size - filled
  String.mk ( '[' :: (List.replicate filled '#' ++ (List.replicate empty '-' ++ [ ']' ])))

/-- `template` object nested inside a raw log's `rawContact.blocks[i]`. -/
structure Template where
  name : Option (List Char)
deriving DecidableEq

/-- One entry of `rawContact.blocks`. -/
structure Block where
  template : Option Template
deriving DecidableEq

/-- `rawContact.contact`. -/
structure Contact where
  name : Option (List Char)
deriving DecidableEq

/-- `rawContact` of a raw log record. -/
structure RawContact where
  blocks : Option (List Block)
  contact : Option Contact
deriving DecidableEq

/-- One raw record of the remote API's `logs` array.  Absent/null source
fields are `none`; `createdAt` is classified for the Date parser. -/
structure RawLog where
  status : Option (List Char)
  destino : Option (List Char)
  campanha : Option (List Char)
  departamento : Option (List Char)
  rawContact : Option RawContact
  createdAt : IsoInput
deriving DecidableEq

/-- The `logs` field of the API response root: either absent/null/not an
array, or an actual array of raw records (src/server.js line 109:
`Array.isArray(root?.logs) ? root.logs : []`). -/
inductive LogsField where
  | notArray
  | arr (logs : List RawLog)
deriving DecidableEq

/-- The JSON root returned by `fetchLogsForCampaign`. -/
structure ApiRoot where
  logs : LogsField
deriving DecidableEq

/-- The normalized record produced by `mapLogs` (src/server.js lines 110-118). -/
structure MappedLog where
  status : Option (List Char)
  destino : Option (List Char)
  _id : Option (List Char)
  departamento : Option (List Char)
  template_name : Option (List Char)
  contact_name : Option (List Char)
  createdAt : Option Int
deriving DecidableEq

/-- The per-record body of `mapLogs` (src/server.js lines 110-118): each
optional-chained access collapses to `none` when any link is missing. -/
def mapOne (l : RawLog) : MappedLog :=
  { status := l.status
    destino := l.destino
    _id := l.campanha
    departamento := l.departamento
    template_name :=
      ((((l.rawContact.bind RawContact.blocks).bind List.head?).bind Block.template).bind Template.name)
    contact_name := ((l.rawContact.bind RawContact.contact).bind Contact.name)
    createdAt := toSqlDateTime l.createdAt }

/-- `mapLogs(root)` (src/server.js lines 108-119): a missing/non-array `logs`
field yields the empty list, otherwise each entry is mapped by `mapOne`. -/
def mapLogs (root : ApiRoot) : List MappedLog :=
  match root.logs with
  | LogsField.notArray => []
  | LogsField.arr ls => ls.map mapOne

/-- The row of parameters bound by `insertLog` (src/server.js lines 142-149). -/
structure BoundRow where
  id : Option (List Char)
  status : Option (List Char)
  destino : Option (List Char)
  departamento : Option (List Char)
  template_name : Option (List Char)
  contact_name : Option (List Char)
  created_at : Option Int
deriving DecidableEq

/-- The parameter binding performed by `insertLog` (src/server.js lines
142-149): each textual field is clamped to its column width, `created_at` is
passed through. The actual DB round trip is environmental (see
`insertLogs`). -/
def insertLog (item : MappedLog) : BoundRow :=
  { id := clampStr item._id 255
    status := clampStr item.status 30
    destino := clampStr item.destino 30
    departamento := clampStr item.departamento 255
    template_name := clampStr item.template_name 100
    contact_name := clampStr item.contact_name 255
    created_at := item.createdAt }

/-- The `lastLogCreatedAt` advance after a successful insert (src/server.js
lines 160-165): only a truthy `createdAt` is considered, and the stored value
is replaced only when unset or strictly exceeded. -/
def updateLastLogCreatedAt (s : RunStatus) (v : Option Int) : RunStatus :=
  match v with
  | none => s
  | some tv =>
    match s.lastLogCreatedAt with
    | none => { s with lastLogCreatedAt := some tv }
    | some old => if tv > old then { s with lastLogCreatedAt := some tv } else s

/-- `insertLogs(pool, mappedLogs)` (src/server.js lines 154-174), with each
record's insert outcome supplied by `outcomes` (`none` at a record's position
= the insert succeeded, `some msg` = it threw with message `msg`; positions
beyond `outcomes` succeed).  Returns (status, clock, inserted count). -/
def insertLogs : RunStatus → Nat → List MappedLog → List (Option String) → RunStatus × Nat × Nat
  | s, t, [], _ => (s, t, 0)
  | s, t, item :: rest, outcomes =>
    match outcomes.headD none with
    | none =>
      let s1 := updateLastLogCreatedAt s item.createdAt
      let r := insertLogs s1 t rest outcomes.tail
      (r.1, r.2.1, r.2.2 + 1)
    | some msg =>
      let s1 := { s with logInsertErrors := s.logInsertErrors + 1
                         lastError := some ("Insert failed: " ++ msg)
                         lastErrorAt := some t }
      insertLogs s1 (t + 1) rest outcomes.tail

/-- One campaign as seen by the run loop, together with the outcomes of the
I/O it triggers: `id` is `campaign?.id` (none when falsy), `fetch` the result
of `fetchLogsForCampaign`, `insertOutcomes` the per-record insert results. -/
structure CampaignInput where
  id : Option String
  fetch : Except String ApiRoot
  insertOutcomes : List (Option String)

/-- Whether a campaign avoids a campaign-level (per-campaign) error in the
run loop: it has a truthy id and its log fetch does not throw (src/server.js
lines 212-225).  Insert outcomes are irrelevant here. -/
def campaignOk (c : CampaignInput) : Bool :=
  match c.id, c.fetch with
  | some _, Except.ok _ => true
  | _, _ => false

/-- The try/catch body for one campaign (src/server.js lines 209-225):
set `currentCampaignId`, fail on a missing id or a throwing fetch (recording
`lastError`/`lastErrorAt`, reporting the campaign-level error flag `true`),
otherwise map the logs and insert them, adding the successful-insert count to
`logsInserted`.  Returns (status, clock, campaign-level error flag). -/
def processCampaign (s : RunStatus) (t : Nat) (c : CampaignInput) : RunStatus × Nat × Bool :=
  let s0 := { s with currentCampaignId := c.id }
  match c.id with
  | none =>
    ({ s0 with lastError := some ("Campaign undefined failed: " ++ "Campaign missing id")
               lastErrorAt := some t }, t + 1, true)
  | some cid =>
    match c.fetch with
    | Except.error msg =>
      ({ s0 with lastError := some ("Campaign " ++ cid ++ " failed: " ++ msg)
                 lastErrorAt := some t }, t + 1, true)
    | Except.ok root =>
      let mapped := mapLogs root
      let r := insertLogs s0 t mapped c.insertOutcomes
      ({ r.1 with logsInserted := r.1.logsInserted + r.2.2 }, r.2.1, false)

/-- The progress recomputation (src/server.js lines 228-230):
`campaignsTotal ? Math.round((campaignsProcessed / campaignsTotal) * 100) : 100`.
Nearest-integer rounding of `processed * 100 / total` on naturals is
`(2 * (processed * 100) + total) / (2 * total)`. -/
def progressPercentOf (processed total : Nat) : Nat :=
  if total = 0 then 100 else (2 * (processed * 100) + total) / (2 * total)

/-- One full iteration of the campaign loop at index `i` (src/server.js lines
207-235): process the campaign, then set `campaignsProcessed := i + 1` and
recompute `progressPercent` and `progressBar`. -/
def afterCampaign (s : RunStatus) (t : Nat) (c : CampaignInput) (i : Nat) : RunStatus × Nat × Bool :=
  let r := processCampaign s t c
  let s2 := { r.1 with campaignsProcessed := i + 1 }
  let s3 := { s2 with progressPercent := progressPercentOf s2.campaignsProcessed s2.campaignsTotal }
  let s4 := { s3 with progressBar := buildProgressBar s3.progressPercent none }
  (s4, r.2.1, r.2.2)

/-- The campaign loop (src/server.js lines 207-235), folding `afterCampaign`
over the campaign list from index `i`, accumulating the `runHadError` flag. -/
def campaignLoop : RunStatus → Nat → List CampaignInput → Nat → Bool → RunStatus × Nat × Bool
  | s, t, [], _, b => (s, t, b)
  | s, t, c :: rest, i, b =>
    let r := afterCampaign s t c i
    campaignLoop r.1 r.2.1 rest (i + 1) (b || r.2.2)

/-- The environment of one `runOnce` invocation: whether `ZAP_API_TOKEN` is
set, and the combined outcome of `getPool()` + `fetchCampaigns(pool)`
(`error` = either threw, carrying `err.message`). -/
structure RunEnv where
  tokenPresent : Bool
  campaignsFetch : Except String (List CampaignInput)

/-- The reset block of `runOnce` (src/server.js lines 184-195): `running`,
timestamps, counters, progress and the error fields are reset;
`lastSuccessAt` and `lastLogCreatedAt` are NOT touched. -/
def resetStatus (s : RunStatus) (t : Nat) : RunStatus :=
  { s with running := true
           lastRunStartedAt := some t
           lastRunFinishedAt := none
           currentCampaignId := none
           campaignsProcessed := 0
           campaignsTotal := 0
           logsInserted := 0
           logInsertErrors := 0
           progressPercent := 0
           progressBar := buildProgressBar 0 none
           lastError := none
           lastErrorAt := none }

/-- `runOnce()` (src/server.js lines 176-249): single-flight guard, reset,
token precondition, campaign-list fetch, campaign loop, finalization
(`lastRunFinishedAt`, conditional `lastSuccessAt`), top-level catch, and the
`finally` clearing `running`.  Returns the new status and clock. -/
def runOnce (env : RunEnv) (s : RunStatus) (t : Nat) : RunStatus × Nat :=
  if s.running then
    ({ s with lastError := some ("Skipped: " ++ "previous run still in progress")
              lastErrorAt := some t }, t + 1)
  else
    let s1 := resetStatus s t
    let t1 := t + 1
    match (if env.tokenPresent then env.campaignsFetch else Except.error "Missing ZAP_API_TOKEN") with
    | Except.error msg =>
      ({ s1 with lastError := some msg
                 lastErrorAt := some t1
                 lastRunFinishedAt := some (t1 + 1)
                 running := false }, t1 + 2)
    | Except.ok campaigns =>
      let s2 := { s1 with campaignsTotal := campaigns.length }
      let r := campaignLoop s2 t1 campaigns 0 false
      let s4 := { r.1 with lastRunFinishedAt := some r.2.1 }
      let s5 := if r.2.2 then s4 else { s4 with lastSuccessAt := some r.2.1 }
      ({ s5 with running := false }, r.2.1 + 1)

/-- Number of records of a batch whose insert outcome is a failure, aligned
the same way `insertLogs` consumes outcomes. -/
def countFails : List MappedLog → List (Option String) → Nat
  | [], _ => 0
  | _ :: rest, outcomes =>
    (if (outcomes.headD none).isSome then 1 else 0) + countFails rest outcomes.tail

/-- The `createdAt` values of the records of a batch whose insert succeeds,
aligned the same way `insertLogs` consumes outcomes. -/
def successCreated : List MappedLog → List (Option String) → List (Option Int)
  | [], _ => []
  | item :: rest, outcomes =>
    match outcomes.headD none with
    | none => item.createdAt :: successCreated rest outcomes.tail
    | some _ => successCreated rest outcomes.tail

/-- Maximum of two optional instants (`none` = no value yet). -/
def omax : Option Int → Option Int → Option Int
  | none, b => b
  | some a, none => some a
  | some a, some b => some (max a b)

/-- Order on optional instants: `none` is below everything, `some` values
compare by value. -/
def ole : Option Int → Option Int → Prop
  | none, _ => True
  | some _, none => False
  | some a, some b => a ≤ b

theorem ole_refl (a : Option Int) : ole a a := by
  cases a <;> simp [ole]

theorem ole_trans {a b c : Option Int} (h1 : ole a b) (h2 : ole b c) : ole a c := by
  cases a <;> cases b <;> cases c <;> simp_all [ole]
  omega

theorem ole_omax_left (a b : Option Int) : ole a (omax a b) := by
  cases a with
  | none => simp [ole]
  | some x =>
    cases b with
    | none => simp [ole, omax]
    | some y => simp [ole, omax, le_max_left]

theorem foldl_omax_mono (l : List (Option Int)) :
    ∀ acc : Option Int, ole acc (l.foldl omax acc) := by
  induction l with
  | nil => intro acc; exact ole_refl acc
  | cons x xs ih =>
    intro acc
    exact ole_trans (ole_omax_left acc x) (ih (omax acc x))

theorem updateLastLogCreatedAt_frame (s : RunStatus) (v : Option Int) :
    (updateLastLogCreatedAt s v).campaignsTotal = s.campaignsTotal ∧
    (updateLastLogCreatedAt s v).lastSuccessAt = s.lastSuccessAt ∧
    (updateLastLogCreatedAt s v).logInsertErrors = s.logInsertErrors := by
  cases v with
  | none => exact ⟨rfl, rfl, rfl⟩
  | some tv =>
    cases h : s.lastLogCreatedAt with
    | none => simp [updateLastLogCreatedAt, h]
    | some old => by_cases hgt : tv > old <;> simp [updateLastLogCreatedAt, h, hgt]

theorem updateLastLogCreatedAt_val (s : RunStatus) (v : Option Int) :
    (updateLastLogCreatedAt s v).lastLogCreatedAt = omax s.lastLogCreatedAt v := by
  cases v with
  | none => cases h : s.lastLogCreatedAt <;> simp [updateLastLogCreatedAt, omax, h]
  | some tv =>
    cases h : s.lastLogCreatedAt with
    | none => simp [updateLastLogCreatedAt, omax, h]
    | some old =>
      simp only [updateLastLogCreatedAt, omax, h]
      by_cases hgt : tv > old
      · simp [hgt, max_eq_right (le_of_lt hgt)]
      · simp [hgt, h, max_eq_left (le_of_not_lt hgt)]

theorem insertLogs_campaignsTotal (items : List MappedLog) :
    ∀ (s : RunStatus) (t : Nat) (outcomes : List (Option String)),
      (insertLogs s t items outcomes).1.campaignsTotal = s.campaignsTotal := by
  induction items with
  | nil => intro s t outcomes; simp [insertLogs]
  | cons item rest ih =>
    intro s t outcomes
    cases h : outcomes.headD none with
    | none =>
      simp only [insertLogs, h]
      simp [ih, (updateLastLogCreatedAt_frame s item.createdAt).1]
    | some msg =>
      simp only [insertLogs, h]
      simp [ih]

theorem insertLogs_lastSuccessAt (items : List MappedLog) :
    ∀ (s : RunStatus) (t : Nat) (outcomes : List (Option String)),
      (insertLogs s t items outcomes).1.lastSuccessAt = s.lastSuccessAt := by
  induction items with
  | nil => intro s t outcomes; simp [insertLogs]
  | cons item rest ih =>
    intro s t outcomes
    cases h : outcomes.headD none with
    | none =>
      simp only [insertLogs, h]
      simp [ih, (updateLastLogCreatedAt_frame s item.createdAt).2.1]
    | some msg =>
      simp only [insertLogs, h]
      simp [ih]

theorem insertLogs_logInsertErrors (items : List MappedLog) :
    ∀ (s : RunStatus) (t : Nat) (outcomes : List (Option String)),
      (insertLogs s t items outcomes).1.logInsertErrors
        = s.logInsertErrors + countFails items outcomes := by
  induction items with
  | nil => intro s t outcomes; simp [insertLogs, countFails]
  | cons item rest ih =>
    intro s t outcomes
    cases h : outcomes.headD none with
    | none =>
      simp only [insertLogs, countFails, h]
      simp [ih, (updateLastLogCreatedAt_frame s item.createdAt).2.2]
    | some msg =>
      simp only [insertLogs, countFails, h]
      simp [ih]
      omega

theorem insertLogs_count (items : List MappedLog) :
    ∀ (s : RunStatus) (t : Nat) (outcomes : List (Option String)),
      (insertLogs s t items outcomes).2.2 + countFails items outcomes = items.length := by
  induction items with
  | nil => intro s t outcomes; simp [insertLogs, countFails]
  | cons item rest ih =>
    intro s t outcomes
    cases h : outcomes.headD none with
    | none =>
      have h2 := ih (updateLastLogCreatedAt s item.createdAt) t outcomes.tail
      simp only [insertLogs, countFails, h]
      simp only [Option.isSome_none, Bool.false_eq_true, if_false, List.length_cons]
      omega
    | some msg =>
      have h2 := ih { s with logInsertErrors := s.logInsertErrors + 1
                             lastError := some ("Insert failed: " ++ msg)
                             lastErrorAt := some t } (t + 1) outcomes.tail
      simp only [insertLogs, countFails, h]
      simp only [Option.isSome_some, if_true, List.length_cons]
      omega

theorem insertLogs_lastLogCreatedAt (items : List MappedLog) :
    ∀ (s : RunStatus) (t : Nat) (outcomes : List (Option String)),
      (insertLogs s t items outcomes).1.lastLogCreatedAt
        = (successCreated items outcomes).foldl omax s.lastLogCreatedAt := by
  induction items with
  | nil => intro s t outcomes; simp [insertLogs, successCreated]
  | cons item rest ih =>
    intro s t outcomes
    cases h : outcomes.headD none with
    | none =>
      simp only [insertLogs, successCreated, h]
      simp [ih, updateLastLogCreatedAt_val]
    | some msg =>
      simp only [insertLogs, successCreated, h]
      simp [ih]

theorem processCampaign_spec (s : RunStatus) (t : Nat) (c : CampaignInput) :
    (processCampaign s t c).1.campaignsTotal = s.campaignsTotal ∧
    (processCampaign s t c).1.lastSuccessAt = s.lastSuccessAt ∧
    (processCampaign s t c).2.2 = !campaignOk c := by
  cases hid : c.id with
  | none => simp [processCampaign, campaignOk, hid]
  | some cid =>
    cases hf : c.fetch with
    | error msg => simp [processCampaign, campaignOk, hid, hf]
    | ok root =>
      simp [processCampaign, campaignOk, hid, hf,
        insertLogs_campaignsTotal, insertLogs_lastSuccessAt]

theorem afterCampaign_spec (s : RunStatus) (t : Nat) (c : CampaignInput) (i : Nat) :
    (afterCampaign s t c i).1.campaignsTotal = s.campaignsTotal ∧
    (afterCampaign s t c i).1.lastSuccessAt = s.lastSuccessAt ∧
    (afterCampaign s t c i).1.campaignsProcessed = i + 1 ∧
    (afterCampaign s t c i).1.progressPercent = progressPercentOf (i + 1) s.campaignsTotal ∧
    (afterCampaign s t c i).2.2 = !campaignOk c := by
  have h := processCampaign_spec s t c
  simp [afterCampaign, h.1, h.2.1, h.2.2]

theorem campaignLoop_nil (s : RunStatus) (t i : Nat) (b : Bool) :
    campaignLoop s t [] i b = (s, t, b) := rfl

theorem campaignLoop_cons (s : RunStatus) (t : Nat) (c : CampaignInput)
    (rest : List CampaignInput) (i : Nat) (b : Bool) :
    campaignLoop s t (c :: rest) i b
      = campaignLoop (afterCampaign s t c i).1 (afterCampaign s t c i).2.1 rest (i + 1)
          (b || (afterCampaign s t c i).2.2) := rfl

theorem campaignLoop_campaignsTotal (cs : List CampaignInput) :
    ∀ (s : RunStatus) (t i : Nat) (b : Bool),
      (campaignLoop s t cs i b).1.campaignsTotal = s.campaignsTotal := by
  induction cs with
  | nil => intro s t i b; simp [campaignLoop]
  | cons c rest ih =>
    intro s t i b
    simp [campaignLoop, ih, (afterCampaign_spec s t c i).1]

theorem campaignLoop_lastSuccessAt (cs : List CampaignInput) :
    ∀ (s : RunStatus) (t i : Nat) (b : Bool),
      (campaignLoop s t cs i b).1.lastSuccessAt = s.lastSuccessAt := by
  induction cs with
  | nil => intro s t i b; simp [campaignLoop]
  | cons c rest ih =>
    intro s t i b
    simp [campaignLoop, ih, (afterCampaign_spec s t c i).2.1]

theorem campaignLoop_hadError (cs : List CampaignInput) :
    ∀ (s : RunStatus) (t i : Nat) (b : Bool),
      (campaignLoop s t cs i b).2.2 = (b || !cs.all campaignOk) := by
  induction cs with
  | nil => intro s t i b; simp [campaignLoop_nil]
  | cons c rest ih =>
    intro s t i b
    rw [campaignLoop_cons, ih, (afterCampaign_spec s t c i).2.2.2.2, List.all_cons]
    cases campaignOk c <;> cases b <;> cases rest.all campaignOk <;> simp

theorem campaignLoop_processed (cs : List CampaignInput) :
    ∀ (s : RunStatus) (t i : Nat) (b : Bool), cs ≠ [] →
      (campaignLoop s t cs i b).1.campaignsProcessed = i + cs.length := by
  induction cs with
  | nil => intro s t i b h; exact absurd rfl h
  | cons c rest ih =>
    intro s t i b _
    cases rest with
    | nil =>
      rw [campaignLoop_cons, campaignLoop_nil]
      simp [(afterCampaign_spec s t c i).2.2.1]
    | cons d ds =>
      rw [campaignLoop_cons, ih _ _ (i + 1) _ (by simp)]
      simp only [List.length_cons]
      omega

theorem campaignLoop_progress (cs : List CampaignInput) :
    ∀ (s : RunStatus) (t i : Nat) (b : Bool), cs ≠ [] →
      (campaignLoop s t cs i b).1.progressPercent
        = progressPercentOf (i + cs.length) s.campaignsTotal := by
  induction cs with
  | nil => intro s t i b h; exact absurd rfl h
  | cons c rest ih =>
    intro s t i b _
    cases rest with
    | nil =>
      rw [campaignLoop_cons, campaignLoop_nil]
      simp [(afterCampaign_spec s t c i).2.2.2.1]
    | cons d ds =>
      have harg : i + 1 + (d :: ds).length = i + (c :: d :: ds).length := by
        simp only [List.length_cons]
        omega
      rw [campaignLoop_cons, ih _ _ (i + 1) _ (by simp),
        (afterCampaign_spec s t c i).1, harg]

theorem runOnce_ok (env : RunEnv) (s : RunStatus) (t : Nat) (cs : List CampaignInput)
    (h1 : env.tokenPresent = true) (h2 : env.campaignsFetch = Except.ok cs)
    (h3 : s.running = false) :
    runOnce env s t
      = (let s2 := { resetStatus s t with campaignsTotal := cs.length }
         let r := campaignLoop s2 (t + 1) cs 0 false
         let s4 := { r.1 with lastRunFinishedAt := some r.2.1 }
         let s5 := if r.2.2 then s4 else { s4 with lastSuccessAt := some r.2.1 }
         ({ s5 with running := false }, r.2.1 + 1)) := by
  simp [runOnce, h1, h2, h3]

theorem runOnce_topError (env : RunEnv) (s : RunStatus) (t : Nat) (msg : String)
    (h3 : s.running = false)
    (h : (if env.tokenPresent then env.campaignsFetch else Except.error "Missing ZAP_API_TOKEN")
          = Except.error msg) :
    runOnce env s t
      = ({ resetStatus s t with lastError := some msg
                                lastErrorAt := some (t + 1)
                                lastRunFinishedAt := some (t + 1 + 1)
                                running := false }, t + 1 + 2) := by
  simp [runOnce, h3, h]

theorem resetStatus_lastSuccessAt (s : RunStatus) (t : Nat) :
    (resetStatus s t).lastSuccessAt = s.lastSuccessAt := rfl

theorem resetStatus_lastLogCreatedAt (s : RunStatus) (t : Nat) :
    (resetStatus s t).lastLogCreatedAt = s.lastLogCreatedAt := rfl

theorem progressPercentOf_self (n : Nat) (h : n ≠ 0) : progressPercentOf n n = 100 := by
  unfold progressPercentOf
  rw [if_neg h]
  have he : 2 * (n * 100) + n = 2 * n * 100 + n := by ring
  rw [he, Nat.mul_add_div (by omega), Nat.div_eq_of_lt (by omega)]

/-! Concrete inputs used by witnesses and counterexamples. -/

/-- An environment whose campaign-list fetch returns the empty list. -/
def envEmpty : RunEnv := { tokenPresent := true, campaignsFetch := Except.ok [] }

/-- An API response whose `logs` field is absent/null/not an array. -/
def rootEmptyLogs : ApiRoot := { logs := LogsField.notArray }

/-- A campaign with an id whose fetch succeeds with no usable `logs` field. -/
def cOkA : CampaignInput :=
  { id := some "A", fetch := Except.ok rootEmptyLogs, insertOutcomes := [] }

/-- An environment with the single well-behaved campaign `cOkA`. -/
def envOne : RunEnv := { tokenPresent := true, campaignsFetch := Except.ok [cOkA] }

/-- A campaign whose log fetch throws. -/
def cBadB : CampaignInput :=
  { id := some "B", fetch := Except.error "boom", insertOutcomes := [] }

/-- An environment with the single failing campaign `cBadB`. -/
def envBad : RunEnv := { tokenPresent := true, campaignsFetch := Except.ok [cBadB] }

/-- A status as the single-flight guard sees it: a run already in progress. -/
def runningState : RunStatus := { initStatus with running := true }

/-- A raw log record with every optional source field absent. -/
def rawNone : RawLog :=
  { status := none, destino := none, campanha := none, departamento := none,
    rawContact := none, createdAt := IsoInput.missing }

/-- A mapped record with every field null. -/
def itemNone : MappedLog :=
  { status := none, destino := none, _id := none, departamento := none,
    template_name := none, contact_name := none, createdAt := none }

/-- A raw record whose timestamp maps (after the 3-hour shift) to instant 500. -/
def rawOld : RawLog :=
  { status := none, destino := none, campanha := none, departamento := none,
    rawContact := none, createdAt := IsoInput.parsed 10800500 }

/-- A response carrying just `rawOld`. -/
def rootOld : ApiRoot := { logs := LogsField.arr [rawOld] }

/-- A campaign that successfully delivers just `rawOld`. -/
def cOld : CampaignInput :=
  { id := some "C", fetch := Except.ok rootOld, insertOutcomes := [] }

/-- An environment with the single campaign `cOld`. -/
def envOld : RunEnv := { tokenPresent := true, campaignsFetch := Except.ok [cOld] }

/-- A status left by an earlier run whose newest inserted log was at instant 1000. -/
def statusPrior : RunStatus := { initStatus with lastLogCreatedAt := some 1000 }

/-! The claims. -/

/-- C1 (counterexample): a run over zero campaigns ends with `campaignsTotal`
equal to 0 and `progressPercent` equal to 0, not 100 — the `: 100` arm of the
progress ternary sits inside the campaign loop, which never executes when
there are no campaigns, so the claim's "campaignsTotal 0 ends at 100" and
its "100 iff every campaign was attempted" are both false for the empty
run. -/
theorem c1_progress_zero_total_counterexample :
    (runOnce envEmpty initStatus 0).1.campaignsTotal = 0 ∧
    (runOnce envEmpty initStatus 0).1.campaignsProcessed = 0 ∧
    (runOnce envEmpty initStatus 0).1.progressPercent = 0 ∧
    ¬ (runOnce envEmpty initStatus 0).1.progressPercent = 100 := by
  exact ⟨by decide, by decide, by decide, by decide⟩

/-- C1 (amended): after every campaign the loop recomputes `progressPercent`
as round(campaignsProcessed/campaignsTotal x 100); at the end of a run whose
campaign-list fetch succeeded, every campaign was attempted
(`campaignsProcessed` = `campaignsTotal` = the list length), and the run ends
with `progressPercent` 100 iff there was at least one campaign — with zero
campaigns the loop never runs and `progressPercent` keeps its reset value 0. -/
theorem c1_progress_amended (env : RunEnv) (s : RunStatus) (t : Nat)
    (cs : List CampaignInput)
    (h1 : env.tokenPresent = true) (h2 : env.campaignsFetch = Except.ok cs)
    (h3 : s.running = false) :
    (∀ (s2 : RunStatus) (t2 : Nat) (c : CampaignInput) (i : Nat),
      (afterCampaign s2 t2 c i).1.progressPercent
        = progressPercentOf (i + 1) s2.campaignsTotal) ∧
    (runOnce env s t).1.campaignsTotal = cs.length ∧
    (runOnce env s t).1.campaignsProcessed = cs.length ∧
    (cs = [] → (runOnce env s t).1.progressPercent = 0) ∧
    (cs ≠ [] → (runOnce env s t).1.progressPercent = 100) := by
  rw [runOnce_ok env s t cs h1 h2 h3]
  refine ⟨fun s2 t2 c i => (afterCampaign_spec s2 t2 c i).2.2.2.1, ?_, ?_, ?_, ?_⟩
  · simp [apply_ite RunStatus.campaignsTotal, campaignLoop_campaignsTotal]
  · rcases cs with _ | ⟨c, rest⟩
    · simp [campaignLoop_nil, resetStatus]
    · simp [apply_ite RunStatus.campaignsProcessed,
        campaignLoop_processed (c :: rest) _ _ 0 false (by simp)]
  · intro hcs
    subst hcs
    simp [campaignLoop_nil, resetStatus]
  · intro hcs
    have hlen : cs.length ≠ 0 := by simpa using hcs
    have hp := campaignLoop_progress cs
      { resetStatus s t with campaignsTotal := cs.length } (t + 1) 0 false hcs
    simp [apply_ite RunStatus.progressPercent, hp, progressPercentOf_self _ hlen]

/-- C1 (witness for the amended theorem): a run over the single campaign
`cOkA` has total 1 at the end. -/
theorem c1_progress_amended_witness :
    envOne.tokenPresent = true ∧
    (runOnce envOne initStatus 0).1.campaignsTotal = [cOkA].length :=
  ⟨rfl, (c1_progress_amended envOne initStatus 0 [cOkA] rfl rfl rfl).2.1⟩

/-- C2: when `running` is already true, `runOnce` leaves every `RunStatus`
field unchanged except `lastError` (set to the overlap message, which
contains "previous run still in progress") and `lastErrorAt` (set to the
current instant), and its result does not depend on the environment at all —
no I/O outcome can influence it. -/
theorem c2_single_flight_guard (env env2 : RunEnv) (s : RunStatus) (t : Nat)
    (h : s.running = true) :
    (runOnce env s t).1.running = s.running ∧
    (runOnce env s t).1.lastRunStartedAt = s.lastRunStartedAt ∧
    (runOnce env s t).1.lastRunFinishedAt = s.lastRunFinishedAt ∧
    (runOnce env s t).1.lastSuccessAt = s.lastSuccessAt ∧
    (runOnce env s t).1.campaignsTotal = s.campaignsTotal ∧
    (runOnce env s t).1.campaignsProcessed = s.campaignsProcessed ∧
    (runOnce env s t).1.logsInserted = s.logsInserted ∧
    (runOnce env s t).1.logInsertErrors = s.logInsertErrors ∧
    (runOnce env s t).1.currentCampaignId = s.currentCampaignId ∧
    (runOnce env s t).1.progressPercent = s.progressPercent ∧
    (runOnce env s t).1.progressBar = s.progressBar ∧
    (runOnce env s t).1.lastLogCreatedAt = s.lastLogCreatedAt ∧
    (runOnce env s t).1.lastError
      = some ("Skipped: " ++ "previous run still in progress") ∧
    (runOnce env s t).1.lastErrorAt = some t ∧
    runOnce env s t = runOnce env2 s t := by
  simp [runOnce, h]

/-- C2 (witness): the guard fires on a state with `running = true`. -/
theorem c2_single_flight_guard_witness :
    runningState.running = true ∧
    (runOnce envEmpty runningState 0).1.running = runningState.running :=
  ⟨rfl, (c2_single_flight_guard envEmpty envOne runningState 0 rfl).1⟩

/-- C3: a campaign whose log fetch throws does not stop the loop: every
campaign of the list is still attempted (`campaignsProcessed` ends at the
full length, each campaign counted exactly once), the failure is recorded in
`lastError`/`lastErrorAt` with the campaign id and message, the campaign
reports a campaign-level error, and the run's `lastSuccessAt` is suppressed
(left at its previous value). -/
theorem c3_per_campaign_error_isolated (env : RunEnv) (s : RunStatus) (t : Nat)
    (pre post : List CampaignInput) (cbad : CampaignInput) (cid msg : String)
    (h1 : env.tokenPresent = true)
    (h2 : env.campaignsFetch = Except.ok (pre ++ cbad :: post))
    (h3 : s.running = false)
    (hid : cbad.id = some cid) (hf : cbad.fetch = Except.error msg) :
    (runOnce env s t).1.campaignsProcessed = (pre ++ cbad :: post).length ∧
    (runOnce env s t).1.lastSuccessAt = s.lastSuccessAt ∧
    (∀ (s2 : RunStatus) (t2 : Nat),
      (processCampaign s2 t2 cbad).1.lastError
          = some ("Campaign " ++ cid ++ " failed: " ++ msg) ∧
      (processCampaign s2 t2 cbad).1.lastErrorAt = some t2 ∧
      (processCampaign s2 t2 cbad).2.2 = true) := by
  have hok : campaignOk cbad = false := by simp [campaignOk, hid, hf]
  have hne : pre ++ cbad :: post ≠ [] := by simp
  rw [runOnce_ok env s t (pre ++ cbad :: post) h1 h2 h3]
  refine ⟨?_, ?_, fun s2 t2 => by simp [processCampaign, hid, hf]⟩
  · simp [apply_ite RunStatus.campaignsProcessed,
      campaignLoop_processed (pre ++ cbad :: post) _ _ 0 false hne]
  · have hall : (pre ++ cbad :: post).all campaignOk = false := by
      simp [List.all_append, List.all_cons, hok]
    simp [campaignLoop_hadError, hall, campaignLoop_lastSuccessAt, resetStatus]

/-- C3 (witness): the single failing campaign `cBadB` is still counted. -/
theorem c3_per_campaign_error_isolated_witness :
    cBadB.fetch = Except.error "boom" ∧
    (runOnce envBad initStatus 0).1.campaignsProcessed = [cBadB].length :=
  ⟨rfl, (c3_per_campaign_error_isolated envBad initStatus 0 [] [] cBadB "B" "boom"
      rfl rfl rfl rfl rfl).1⟩

/-- C4: a failing insert increments `logInsertErrors` by one, overwrites
`lastError`/`lastErrorAt` with the insert message, contributes nothing to the
inserted count, and insertion simply continues with the remaining records;
over a whole batch the inserted count plus the failure count is the batch
length, `logInsertErrors` grows by exactly the failure count, and a run whose
campaigns all fetched fine still gets `lastSuccessAt` regardless of its
insert outcomes. -/
theorem c4_insert_error_isolated :
    (∀ (s : RunStatus) (t : Nat) (item : MappedLog) (rest : List MappedLog)
        (msg : String) (outcomes : List (Option String)),
      insertLogs s t (item :: rest) (some msg :: outcomes)
        = insertLogs { s with logInsertErrors := s.logInsertErrors + 1
                              lastError := some ("Insert failed: " ++ msg)
                              lastErrorAt := some t } (t + 1) rest outcomes) ∧
    (∀ (s : RunStatus) (t : Nat) (items : List MappedLog)
        (outcomes : List (Option String)),
      (insertLogs s t items outcomes).2.2 + countFails items outcomes = items.length ∧
      (insertLogs s t items outcomes).1.logInsertErrors
        = s.logInsertErrors + countFails items outcomes) ∧
    (∀ (env : RunEnv) (s : RunStatus) (t : Nat) (cs : List CampaignInput),
      env.tokenPresent = true → env.campaignsFetch = Except.ok cs →
      s.running = false → cs.all campaignOk = true →
      (runOnce env s t).1.lastSuccessAt = (runOnce env s t).1.lastRunFinishedAt) := by
  refine ⟨fun s t item rest msg outcomes => rfl,
    fun s t items outcomes =>
      ⟨insertLogs_count items s t outcomes, insertLogs_logInsertErrors items s t outcomes⟩,
    ?_⟩
  intro env s t cs h1 h2 h3 hall
  rw [runOnce_ok env s t cs h1 h2 h3]
  simp [campaignLoop_hadError, hall, apply_ite RunStatus.lastSuccessAt,
    apply_ite RunStatus.lastRunFinishedAt]

/-- C4 (witness): a concrete failing insert steps to the remaining batch with
the error counted and recorded. -/
theorem c4_insert_error_isolated_witness :
    insertLogs initStatus 0 [itemNone] [some "dup"]
      = insertLogs { initStatus with logInsertErrors := initStatus.logInsertErrors + 1
                                     lastError := some ("Insert failed: " ++ "dup")
                                     lastErrorAt := some 0 } 1 [] [] :=
  c4_insert_error_isolated.1 initStatus 0 itemNone [] "dup" []

/-- C5: at the end of a run that reached finalization, `lastSuccessAt` equals
`lastRunFinishedAt` (which is set) when no campaign-level error occurred, and
keeps its previous value when some campaign failed; a run that fails at the
top level (missing token, or a throwing pool/campaign-list fetch) also leaves
`lastSuccessAt` unchanged. -/
theorem c5_last_success (env : RunEnv) (s : RunStatus) (t : Nat)
    (h3 : s.running = false) :
    (∀ cs : List CampaignInput,
      env.tokenPresent = true → env.campaignsFetch = Except.ok cs →
      (cs.all campaignOk = true →
        (runOnce env s t).1.lastSuccessAt = (runOnce env s t).1.lastRunFinishedAt ∧
        (runOnce env s t).1.lastRunFinishedAt ≠ none) ∧
      (cs.all campaignOk = false →
        (runOnce env s t).1.lastSuccessAt = s.lastSuccessAt)) ∧
    (env.tokenPresent = false →
      (runOnce env s t).1.lastSuccessAt = s.lastSuccessAt) ∧
    (∀ msg : String, env.campaignsFetch = Except.error msg →
      (runOnce env s t).1.lastSuccessAt = s.lastSuccessAt) := by
  refine ⟨?_, ?_, ?_⟩
  · intro cs h1 h2
    rw [runOnce_ok env s t cs h1 h2 h3]
    constructor
    · intro hall
      simp [campaignLoop_hadError, hall, apply_ite RunStatus.lastSuccessAt,
        apply_ite RunStatus.lastRunFinishedAt]
    · intro hall
      simp [campaignLoop_hadError, hall, campaignLoop_lastSuccessAt, resetStatus]
  · intro htok
    rw [runOnce_topError env s t "Missing ZAP_API_TOKEN" h3 (by simp [htok])]
    simp [resetStatus]
  · intro msg hmsg
    by_cases htok : env.tokenPresent = true
    · rw [runOnce_topError env s t msg h3 (by simp [htok, hmsg])]
      simp [resetStatus]
    · rw [runOnce_topError env s t "Missing ZAP_API_TOKEN" h3 (by simp [htok])]
      simp [resetStatus]

/-- C5 (witness): an all-clean run sets `lastSuccessAt` to the finish time. -/
theorem c5_last_success_witness :
    [cOkA].all campaignOk = true ∧
    (runOnce envOne initStatus 0).1.lastSuccessAt
      = (runOnce envOne initStatus 0).1.lastRunFinishedAt :=
  ⟨by decide, (((c5_last_success envOne initStatus 0 rfl).1 [cOkA] rfl rfl).1 (by decide)).1⟩

/-- C6 (counterexample): `lastLogCreatedAt` is not reset between runs, so it
does NOT reflect only the logs inserted in the current run: starting from a
status whose `lastLogCreatedAt` is 1000 (from a prior run), a run that
successfully inserts exactly one record with `created_at` 500 ends with
`lastLogCreatedAt` still 1000, while the maximum `created_at` inserted during
that run is 500. -/
theorem c6_lastlog_counterexample :
    (runOnce envOld statusPrior 0).1.logsInserted = 1 ∧
    (runOnce envOld statusPrior 0).1.lastLogCreatedAt = some 1000 ∧
    (successCreated (mapLogs rootOld) cOld.insertOutcomes).foldl omax none = some 500 ∧
    ¬ (runOnce envOld statusPrior 0).1.lastLogCreatedAt
        = (successCreated (mapLogs rootOld) cOld.insertOutcomes).foldl omax none := by
  exact ⟨by decide, by decide, by decide, by decide⟩

/-- C6 (amended): `lastLogCreatedAt` is the running maximum of the
`created_at` values of ALL successfully inserted records since the value was
last unset — the batch inserter advances it exactly to the `omax`-fold of the
successful records' timestamps over its previous value, it never regresses,
and a run does not reset it (the value carries over from prior runs). -/
theorem c6_lastlog_amended (s : RunStatus) (t : Nat) (items : List MappedLog)
    (outcomes : List (Option String)) :
    (insertLogs s t items outcomes).1.lastLogCreatedAt
      = (successCreated items outcomes).foldl omax s.lastLogCreatedAt ∧
    ole s.lastLogCreatedAt (insertLogs s t items outcomes).1.lastLogCreatedAt ∧
    (∀ env : RunEnv, env.tokenPresent = true → env.campaignsFetch = Except.ok [] →
      s.running = false →
      (runOnce env s t).1.lastLogCreatedAt = s.lastLogCreatedAt) := by
  refine ⟨insertLogs_lastLogCreatedAt items s t outcomes, ?_, ?_⟩
  · rw [insertLogs_lastLogCreatedAt items s t outcomes]
    exact foldl_omax_mono _ _
  · intro env h1 h2 h3
    rw [runOnce_ok env s t [] h1 h2 h3]
    simp [campaignLoop_nil, resetStatus]

/-- C6 (witness for the amended theorem): an empty run leaves
`lastLogCreatedAt` untouched. -/
theorem c6_lastlog_amended_witness :
    (runOnce envEmpty initStatus 0).1.lastLogCreatedAt = initStatus.lastLogCreatedAt :=
  (c6_lastlog_amended initStatus 0 [] []).2.2 envEmpty rfl rfl rfl

/-- C7: the timestamp conversion maps a missing/falsy value and an
unparseable value to null, and a parsed instant to the instant exactly 3
hours (10800000 ms) earlier; in particular the instant of
"2024-01-01T10:00:00Z" (epoch ms 1704103200000) maps to the instant of
2024-01-01T07:00:00Z (epoch ms 1704092400000). -/
theorem c7_timestamp_conversion (v : Int) :
    toSqlDateTime IsoInput.missing = none ∧
    toSqlDateTime IsoInput.unparseable = none ∧
    toSqlDateTime (IsoInput.parsed v) = some (v - 10800000) ∧
    toSqlDateTime (IsoInput.parsed 1704103200000) = some 1704092400000 := by
  exact ⟨rfl, rfl, rfl, by decide⟩

/-- C8: every textual field bound for insertion is truncated, never rejected:
null maps to null, a present value is truncated to the column width (so the
result never exceeds the width), the bound row clamps id/departamento/
contact_name to 255, status/destino to 30 and template_name to 100, and a
departamento of length 300 is stored as exactly its first 255 characters. -/
theorem c8_string_truncation (sVal : List Char) (n : Nat) :
    clampStr none n = none ∧
    clampStr (some sVal) n = some (sVal.take n) ∧
    (sVal.take n).length ≤ n ∧
    (∀ item : MappedLog,
      insertLog item
        = { id := clampStr item._id 255
            status := clampStr item.status 30
            destino := clampStr item.destino 30
            departamento := clampStr item.departamento 255
            template_name := clampStr item.template_name 100
            contact_name := clampStr item.contact_name 255
            created_at := item.createdAt }) ∧
    clampStr (some (List.replicate 300 'a')) 255 = some (List.replicate 255 'a') := by
  refine ⟨rfl, ?_, ?_, fun item => rfl, ?_⟩
  · by_cases h : sVal.length > n
    · simp [clampStr, h]
    · simp [clampStr, h, List.take_of_length_le (le_of_not_lt h)]
  · rw [List.length_take]
    exact min_le_left _ _
  · simp only [clampStr, List.length_replicate]
    rw [if_pos (show 300 > 255 by norm_num), List.take_replicate]
    norm_num

/-- C9: for every percent in 0..100 the progress bar is a fixed 20-cell bar:
an opening bracket, round(percent/100 x 20) filled cells, the remaining cells
as dashes, and a closing bracket (filled + empty = 20); 0% is fully empty,
50% is half filled, 100% fully filled. -/
theorem c9_progress_bar (p : Nat) (h : p ≤ 100) :
    buildProgressBar p none
      = String.mk ( '[' :: (List.replicate ((2 * p * 20 + 100) / 200) '#'
          ++ (List.replicate (20 - (2 * p * 20 + 100) / 200) '-' ++ [ ']' ]))) ∧
    (2 * p * 20 + 100) / 200 + (20 - (2 * p * 20 + 100) / 200) = 20 ∧
    buildProgressBar 0 none = "[--------------------]" ∧
    buildProgressBar 50 none = "[##########----------]" ∧
    buildProgressBar 100 none = "[####################]" := by
  refine ⟨rfl, ?_, by decide, by decide, by decide⟩
  have hb : 2 * p * 20 + 100 ≤ 4100 := by omega
  have hf : (2 * p * 20 + 100) / 200 ≤ 20 := by
    calc (2 * p * 20 + 100) / 200 ≤ 4100 / 200 := Nat.div_le_div_right hb
    _ = 20 := by norm_num
  omega

/-- C9 (witness): 50 percent gives 10 filled and 10 empty cells. -/
theorem c9_progress_bar_witness :
    (50 : Nat) ≤ 100 ∧ buildProgressBar 50 none = "[##########----------]" :=
  ⟨by decide, (c9_progress_bar 50 (by decide)).2.2.2.1⟩

/-- C10: a response whose `logs` field is absent/null/not an array maps
totally to the empty batch, so such a campaign completes without a
per-campaign error and contributes zero inserts and zero insert errors; and
each absent raw field (status, destino, campanha, departamento, the nested
template name and contact name, the timestamp) maps to null. -/
theorem c10_maplogs_total (st : RunStatus) (t : Nat) (c : CampaignInput)
    (cid : String) (root : ApiRoot) (l : RawLog)
    (hid : c.id = some cid) (hf : c.fetch = Except.ok root)
    (hlogs : root.logs = LogsField.notArray) :
    mapLogs root = [] ∧
    (processCampaign st t c).2.2 = false ∧
    (processCampaign st t c).1.logsInserted = st.logsInserted ∧
    (processCampaign st t c).1.logInsertErrors = st.logInsertErrors ∧
    (mapOne l).status = l.status ∧
    (mapOne l).destino = l.destino ∧
    (mapOne l)._id = l.campanha ∧
    (mapOne l).departamento = l.departamento ∧
    (l.rawContact = none →
      (mapOne l).template_name = none ∧ (mapOne l).contact_name = none) ∧
    (l.createdAt = IsoInput.missing → (mapOne l).createdAt = none) := by
  have hm : mapLogs root = [] := by simp [mapLogs, hlogs]
  refine ⟨hm, ?_, ?_, ?_, rfl, rfl, rfl, rfl, ?_, ?_⟩
  · simp [processCampaign, hid, hf, hm, insertLogs]
  · simp [processCampaign, hid, hf, hm, insertLogs]
  · simp [processCampaign, hid, hf, hm, insertLogs]
  · intro hrc; simp [mapOne, hrc]
  · intro hca; simp [mapOne, hca, toSqlDateTime]

/-- C10 (witness): the concrete no-logs campaign completes cleanly. -/
theorem c10_maplogs_total_witness :
    cOkA.id = some "A" ∧ (processCampaign initStatus 0 cOkA).2.2 = false :=
  ⟨rfl, (c10_maplogs_total initStatus 0 cOkA "A" rootEmptyLogs rawNone rfl rfl rfl).2.1⟩

end Zap
